import Mathlib

/-!
Verification development for the IDF/EMN importer.

This file embeds the parser module of the repository (idf_parser.py) in
Lean 4: the line tokenizer, the numeric field decoders, the loop-point
geometry reconstructor, and the section-scanning parse routine, and then
proves or refutes the specification claims about them.

Conventions of the embedding:
* Python floats are modelled as exact numbers: coordinates, angles and
  unit factors are rationals, while quantities produced by sqrt, sin and
  atan2 live in the reals.
* Python functions that can raise are modelled with Option or Except.
* The scanning loop of parse, which walks a token list by index, is
  modelled by a fuel-indexed recursion whose fuel is the token count; one
  unit of fuel is spent per iteration of the Python while loop, so the
  initial fuel is always sufficient.
-/

namespace IdfEmn

/-! ## Tokenizer

Port of IdfParser._tokenize_line: a character-by-character walk with an
in-quote flag and a current-token accumulator.  Inside quotes every
character is accumulated and the closing quote always flushes the
accumulator (even when it is empty); outside quotes a double quote enters
quote mode, a space flushes a non-empty accumulator, and every other
character (tabs included) is accumulated.  At end of line a non-empty
accumulator is flushed. -/

def tokenizeAux : List Char → Bool → String → List String
  | [], _, cur => if cur ≠ "" then [cur] else []
  | c :: cs, true, cur =>
      if c = '"' then cur :: tokenizeAux cs false ""
      else tokenizeAux cs true (cur.push c)
  | c :: cs, false, cur =>
      if c = '"' then tokenizeAux cs true cur
      else if c = ' ' then
        if cur ≠ "" then cur :: tokenizeAux cs false "" else tokenizeAux cs false ""
      else tokenizeAux cs false (cur.push c)

def tokenizeLine (line : String) : List String :=
  tokenizeAux line.toList false ""

/-! ## Numeric field decoders

The source converts numeric fields with Python float() and int(), which
raise ValueError on malformed input.  The model below accepts the decimal
numerals the format uses (optional sign, digits, at most one point) and
returns none otherwise. -/

def digitsToNat (cs : List Char) : ℕ :=
  cs.foldl (fun n c => n * 10 + (c.toNat - 48)) 0

def allDigits (cs : List Char) : Bool :=
  cs.all (·.isDigit)

/-- str.split on the decimal point. -/
def splitOnDot : List Char → List (List Char)
  | [] => [[]]
  | '.' :: cs => [] :: splitOnDot cs
  | c :: cs =>
      match splitOnDot cs with
      | l :: ls => (c :: l) :: ls
      | [] => [[c]]

def parseDecimal (cs : List Char) : Option ℚ :=
  match splitOnDot cs with
  | [ip] =>
      if ip ≠ [] ∧ allDigits ip then some (digitsToNat ip) else none
  | [ip, fp] =>
      if (ip ≠ [] ∨ fp ≠ []) ∧ allDigits ip ∧ allDigits fp then
        some ((digitsToNat ip : ℚ) + (digitsToNat fp : ℚ) / 10 ^ fp.length)
      else none
  | _ => none

def parseFloat (s : String) : Option ℚ :=
  match s.toList with
  | '-' :: rest => (parseDecimal rest).map (fun q => -q)
  | '+' :: rest => parseDecimal rest
  | cs => parseDecimal cs

def parseInt (s : String) : Option ℤ :=
  match s.toList with
  | '-' :: rest =>
      if rest ≠ [] ∧ allDigits rest then some (-(digitsToNat rest : ℤ)) else none
  | '+' :: rest =>
      if rest ≠ [] ∧ allDigits rest then some (digitsToNat rest : ℤ) else none
  | cs =>
      if cs ≠ [] ∧ allDigits cs then some (digitsToNat cs : ℤ) else none

/-! ## Geometry data model

The source builds shapes of the host geometry library: point tuples, Arc
objects (center, radius, start angle, sweep angle), Circle objects (the
source passes only a radius), Polygon and ArcPolygon.  Coordinates and
angles coming from the file are rationals; values produced by sqrt, sin
and atan2 are reals. -/

structure LoopPoint where
  id : ℕ
  loop_n : ℤ
  x : ℚ
  y : ℚ
  angle : ℚ
deriving DecidableEq, Repr

structure ArcShape where
  cx : ℝ
  cy : ℝ
  radius : ℝ
  startAngle : ℝ
  sweep : ℚ

inductive GeomElement
  | pt : ℚ × ℚ → GeomElement
  | arc : ArcShape → GeomElement

inductive Shape
  | circle : ℝ → Shape
  | polygon : List (ℚ × ℚ) → Shape
  | arcPolygon : List GeomElement → Shape

/-! ## Geometry reconstructor

Port of IdfParser._points_to_geometry. -/

/-- math.radians: degrees to radians. -/
noncomputable def radiansOf (θ : ℚ) : ℝ := (θ : ℝ) * Real.pi / 180

/-- math.degrees: radians to degrees. -/
noncomputable def degreesOf (r : ℝ) : ℝ := r * 180 / Real.pi

/-- math.atan2 y x, the argument of the point (x, y), in (-pi, pi]. -/
noncomputable def atan2 (y x : ℝ) : ℝ := Complex.arg ⟨x, y⟩

open Classical in
/-- The arc branch of the vertex walk: from the current point (xp, yp), a
target point (xn, yn) (both already unit-scaled) and a bulge angle, build
the Arc the source emits, or none when the source hits one of its two
degenerate-skip continues (zero chord, or sin of the half sweep smaller
than 1e-10 in absolute value). -/
noncomputable def arcStep (xp yp xn yn θ : ℚ) : Option ArcShape :=
  let distSq : ℚ := (xp - xn) ^ 2 + (yp - yn) ^ 2
  if distSq = 0 then none
  else
    let dist : ℝ := Real.sqrt (distSq : ℝ)
    let xm : ℚ := (xp + xn) / 2
    let ym : ℚ := (yp + yn) / 2
    let rise_x : ℝ := ((xn : ℝ) - (xp : ℝ)) / dist
    let rise_y : ℝ := ((yn : ℝ) - (yp : ℝ)) / dist
    let half_sw_ang : ℝ := radiansOf (θ / 2)
    if |Real.sin half_sw_ang| < 1e-10 then none
    else
      let dist_over_2 : ℝ := dist / 2
      let radius : ℝ := |dist_over_2 / Real.sin half_sw_ang|
      let over180 : ℝ := if 180 < |θ| then -1 else 1
      let negative : ℝ := if θ < 0 then -1 else 1
      let dist_m_to_c : ℝ := Real.sqrt (max 0 (radius ^ 2 - dist_over_2 ^ 2))
      let xc : ℝ := (xm : ℝ) - rise_y * dist_m_to_c * over180 * negative
      let yc : ℝ := (ym : ℝ) + rise_x * dist_m_to_c * over180 * negative
      let start_ang : ℝ := degreesOf (atan2 ((yp : ℝ) - yc) ((xp : ℝ) - xc))
      let start_ang' : ℝ :=
        if start_ang < 0 then start_ang + 360
        else if 360 < start_ang then start_ang - 360
        else start_ang
      some ⟨xc, yc, radius, start_ang', θ⟩

/-- State of the per-loop vertex walk: the current point, the accumulated
polygon/arc elements of this loop, and circle shapes already emitted
directly into the geometry list. -/
structure WalkState where
  cur : ℚ × ℚ
  elements : List GeomElement
  circles : List Shape

/-- One iteration of the for-point loop of _points_to_geometry. -/
noncomputable def walkVertex (u : ℚ) (st : WalkState) (p : LoopPoint) : WalkState :=
  if p.angle = 0 then
    let np : ℚ × ℚ := (p.x * u, p.y * u)
    { st with elements := st.elements ++ [.pt np], cur := np }
  else if |p.angle| = 360 then
    let np : ℚ × ℚ := (p.x * u, p.y * u)
    let distSq : ℚ := (st.cur.1 - np.1) ^ 2 + (st.cur.2 - np.2) ^ 2
    { st with circles := st.circles ++ [.circle (Real.sqrt (distSq : ℝ))], cur := np }
  else
    let xn : ℚ := p.x * u
    let yn : ℚ := p.y * u
    match arcStep st.cur.1 st.cur.2 xn yn p.angle with
    | none => st
    | some a => { st with elements := st.elements ++ [.arc a], cur := (xn, yn) }

def isArc : GeomElement → Bool
  | .arc _ => true
  | .pt _ => false

def ptVal : GeomElement → Option (ℚ × ℚ)
  | .pt p => some p
  | .arc _ => none

/-- The end-of-loop shape construction of _points_to_geometry.  The
source's first branch (a single element that is a Circle) is unreachable,
because the full-circle branch never appends to elements; the element type
therefore has no circle constructor here.  With at least one arc an
ArcPolygon is built from all elements; otherwise the point tuples form a
Polygon when there are at least three of them, and nothing is emitted when
there are fewer. -/
def finalizeLoop (elements : List GeomElement) : List Shape :=
  if elements.any isArc then [.arcPolygon elements]
  else
    let ps := elements.filterMap ptVal
    if 3 ≤ ps.length then [.polygon ps] else []

/-- Stable insertion of a loop point into a list sorted by id
(points.sort with key id; ids are unique, assigned by a monotone
counter). -/
def insertById (p : LoopPoint) : List LoopPoint → List LoopPoint
  | [] => [p]
  | q :: qs => if p.id < q.id then p :: q :: qs else q :: insertById p qs

def sortById : List LoopPoint → List LoopPoint
  | [] => []
  | p :: ps => insertById p (sortById ps)

/-- Processing of one loop: sort its points by id, start from the first
sorted point, walk every point, then append the loop's final shape after
any circles emitted during the walk. -/
noncomputable def processLoop (u : ℚ) (pts : List LoopPoint) : List Shape :=
  match sortById pts with
  | [] => []
  | p0 :: rest =>
      let st0 : WalkState := ⟨(p0.x * u, p0.y * u), [], []⟩
      let st := (p0 :: rest).foldl (walkVertex u) st0
      st.circles ++ finalizeLoop st.elements

/-- Keys of the loop-number grouping dictionary, in first-seen order (a
Python dict iterates its keys in insertion order). -/
def firstSeenKeys (pts : List LoopPoint) : List ℤ :=
  pts.foldl (fun ks p => if p.loop_n ∈ ks then ks else ks ++ [p.loop_n]) []

/-- The list a grouping-dictionary entry holds: the points of one loop
number, in original order. -/
def groupOf (pts : List LoopPoint) (k : ℤ) : List LoopPoint :=
  pts.filter (fun p => p.loop_n = k)

/-- Port of IdfParser._points_to_geometry: group the points by loop
number, process the loops in first-seen key order and concatenate their
shapes. -/
noncomputable def pointsToGeometry (u : ℚ) (pts : List LoopPoint) : List Shape :=
  (firstSeenKeys pts).flatMap (fun k => processLoop u (groupOf pts k))

/-! ## Parsed record types

Ports of the dataclasses of idf_parser.py.  IdfFile mirrors the source
field for field; in particular it has collections for other, route, route
keepout, via keepout and place keepout outlines but none for place
outlines. -/

structure IdfHeader where
  filetype : String
  idf_version : ℚ
  source_system : String
  date : String
  version : ℤ
  name : String
  units : String
deriving DecidableEq

structure IdfOutline where
  owner : String
  ident : String
  thickness : ℚ
  layers : String
  outline : Shape
  cutouts : List Shape

structure IdfHole where
  dia : ℚ
  x : ℚ
  y : ℚ
  plating : String
  assoc : String
  type : String
  owner : String
deriving DecidableEq

structure IdfNote where
  x : ℚ
  y : ℚ
  height : ℚ
  length : ℚ
  text : String
deriving DecidableEq

structure IdfPart where
  package : String
  partnumber : String
  refdes : String
  x : ℚ
  y : ℚ
  offset : ℚ
  angle : ℚ
  side : String
  status : String
deriving DecidableEq

structure IdfFile where
  header : IdfHeader
  board_outline : Shape
  board_cutouts : List Shape
  other_outlines : List IdfOutline
  route_outlines : List IdfOutline
  route_keepouts : List IdfOutline
  via_keepouts : List IdfOutline
  place_keepouts : List IdfOutline
  holes : List IdfHole
  notes : List IdfNote
  placement : List IdfPart

/-- The ways the source parse aborts: IdfException for a missing section
end marker and for the two cardinality checks, and ValueError/IndexError
(modelled as one decode error) from malformed numeric fields or missing
header fields. -/
inductive IdfError
  | sectionEndNotFound (marker : String)
  | headerCount (n : ℕ)
  | boardOutlineCount (n : ℕ)
  | decode
deriving DecidableEq

def req {α : Type} : Option α → Except IdfError α
  | some a => .ok a
  | none => .error .decode

instance {ε α : Type} [DecidableEq ε] [DecidableEq α] : DecidableEq (Except ε α) := fun a b =>
  match a, b with
  | .ok x, .ok y =>
      if h : x = y then isTrue (by rw [h]) else isFalse (fun hh => h (Except.ok.inj hh))
  | .error x, .error y =>
      if h : x = y then isTrue (by rw [h]) else isFalse (fun hh => h (Except.error.inj hh))
  | .ok _, .error _ => isFalse (fun hh => Except.noConfusion hh)
  | .error _, .ok _ => isFalse (fun hh => Except.noConfusion hh)

/-! ## Record decoders -/

/-- Port of IdfParser._parse_loop_points: consume groups of four tokens
(loop number, x, y, angle) while at least four remain, assigning ids from
the running sequence counter; returns the points and the advanced
counter. -/
def parseLoopPoints (seq : ℕ) : List String → Except IdfError (List LoopPoint × ℕ)
  | a :: b :: c :: d :: rest => do
      let ln ← req (parseInt a)
      let x ← req (parseFloat b)
      let y ← req (parseFloat c)
      let ang ← req (parseFloat d)
      let (ps, seq') ← parseLoopPoints (seq + 1) rest
      .ok (⟨seq, ln, x, y, ang⟩ :: ps, seq')
  | _ => .ok ([], seq)

/-- Port of IdfParser._parse_holes: consume groups of seven tokens,
scaling diameter and coordinates by the unit factor. -/
def parseHoles (u : ℚ) : List String → Except IdfError (List IdfHole)
  | d :: x :: y :: pl :: asc :: ty :: ow :: rest => do
      let dq ← req (parseFloat d)
      let xq ← req (parseFloat x)
      let yq ← req (parseFloat y)
      let hs ← parseHoles u rest
      .ok (⟨dq * u, xq * u, yq * u, pl, asc, ty, ow⟩ :: hs)
  | _ => .ok []

/-- Port of IdfParser._parse_notes: groups of five tokens. -/
def parseNotes (u : ℚ) : List String → Except IdfError (List IdfNote)
  | x :: y :: h :: l :: t :: rest => do
      let xq ← req (parseFloat x)
      let yq ← req (parseFloat y)
      let hq ← req (parseFloat h)
      let lq ← req (parseFloat l)
      let ns ← parseNotes u rest
      .ok (⟨xq * u, yq * u, hq * u, lq * u, t⟩ :: ns)
  | _ => .ok []

/-- Port of IdfParser._parse_placement: groups of nine tokens; x, y and
offset are scaled by the unit factor, the rotation angle is not. -/
def parsePlacement (u : ℚ) : List String → Except IdfError (List IdfPart)
  | pkg :: pn :: rd :: x :: y :: off :: ang :: sd :: stt :: rest => do
      let xq ← req (parseFloat x)
      let yq ← req (parseFloat y)
      let oq ← req (parseFloat off)
      let aq ← req (parseFloat ang)
      let ps ← parsePlacement u rest
      .ok (⟨pkg, pn, rd, xq * u, yq * u, oq * u, aq, sd, stt⟩ :: ps)
  | _ => .ok []

/-- The header construction inside parse: fixed indices 0 through 6 of the
section's tokens (an IndexError — fewer than seven tokens — is a decode
error), with the version and revision fields converted numerically. -/
def decodeHeader : List String → Except IdfError IdfHeader
  | t0 :: t1 :: t2 :: t3 :: t4 :: t5 :: t6 :: _ => do
      let v ← req (parseFloat t1)
      let rev ← req (parseInt t4)
      .ok ⟨t0, v, t2, t3, rev, t5, t6⟩
  | _ => .error .decode

/-! ## Section scanning -/

/-- Port of IdfParser._find_section_end: the index of the first occurrence
of the end marker, none when absent. -/
def findEnd (m : String) : List String → Option ℕ
  | [] => none
  | t :: ts => if t = m then some 0 else (findEnd m ts).map (· + 1)

/-- The accumulating state of the parse loop: the unit factor, the loop-id
sequence counter, and one collection per record kind. -/
structure ParseState where
  ucnv : ℚ
  seq : ℕ
  headers : List IdfHeader
  boardOutlines : List IdfOutline
  otherOutlines : List IdfOutline
  routeOutlines : List IdfOutline
  routeKeepouts : List IdfOutline
  viaKeepouts : List IdfOutline
  placeKeepouts : List IdfOutline
  holes : List IdfHole
  notes : List IdfNote
  placement : List IdfPart

def initState : ParseState :=
  ⟨1, 0, [], [], [], [], [], [], [], [], [], []⟩

/-- Header section: decode the header, append it, and set the unit factor
from the units tag (THOU gives 0.0254, MM gives 1, anything else warns and
gives 1). -/
def handleHeader (st : ParseState) (sec : List String) : Except IdfError ParseState := do
  let h ← decodeHeader sec
  let u : ℚ := if h.units = "THOU" then 127 / 5000 else 1
  .ok { st with headers := st.headers ++ [h], ucnv := u }

/-- Board or panel outline section (ident is the section keyword token):
tokens after owner and thickness are loop points; when they produce
geometry, the first shape is the outline and the rest are cutouts, and the
thickness field is converted; when they produce none, nothing is
recorded. -/
noncomputable def handleBoardOutline (ident : String) (st : ParseState) (sec : List String) :
    Except IdfError ParseState := do
  let (pts, seq') ← parseLoopPoints st.seq (sec.drop 2)
  match pointsToGeometry st.ucnv pts with
  | [] => .ok { st with seq := seq' }
  | g0 :: grest =>
      match sec with
      | s0 :: s1 :: _ => do
          let th ← req (parseFloat s1)
          .ok { st with
                seq := seq'
                boardOutlines := st.boardOutlines ++ [⟨s0, ident, th, "", g0, grest⟩] }
      | _ => .error .decode

/-- Other outline section: owner, ident, thickness, layers, then loop
points; first shape is the outline, the rest are cutouts. -/
noncomputable def handleOtherOutline (st : ParseState) (sec : List String) :
    Except IdfError ParseState := do
  let (pts, seq') ← parseLoopPoints st.seq (sec.drop 4)
  match pointsToGeometry st.ucnv pts with
  | [] => .ok { st with seq := seq' }
  | g0 :: grest =>
      match sec with
      | s0 :: s1 :: s2 :: s3 :: _ => do
          let th ← req (parseFloat s2)
          .ok { st with
                seq := seq'
                otherOutlines := st.otherOutlines ++ [⟨s0, s1, th, s3, g0, grest⟩] }
      | _ => .error .decode

/-- Route outline section: owner and layers, then loop points; only the
first shape is kept (cutouts empty), thickness 0, ident is the section
keyword. -/
noncomputable def handleRouteOutline (st : ParseState) (sec : List String) :
    Except IdfError ParseState := do
  let (pts, seq') ← parseLoopPoints st.seq (sec.drop 2)
  match pointsToGeometry st.ucnv pts with
  | [] => .ok { st with seq := seq' }
  | g0 :: _ =>
      match sec with
      | s0 :: s1 :: _ =>
          .ok { st with
                seq := seq'
                routeOutlines := st.routeOutlines ++ [⟨s0, ".ROUTE_OUTLINE", 0, s1, g0, []⟩] }
      | _ => .error .decode

/-- Place outline section: owner, layers, thickness, then loop points.
The source appends the built record to the route-outline collection (its
comment says the Stanza original does the same); there is no place-outline
collection. -/
noncomputable def handlePlaceOutline (st : ParseState) (sec : List String) :
    Except IdfError ParseState := do
  let (pts, seq') ← parseLoopPoints st.seq (sec.drop 3)
  match pointsToGeometry st.ucnv pts with
  | [] => .ok { st with seq := seq' }
  | g0 :: _ =>
      match sec with
      | s0 :: s1 :: s2 :: _ => do
          let th ← req (parseFloat s2)
          .ok { st with
                seq := seq'
                routeOutlines := st.routeOutlines ++ [⟨s0, ".PLACE_OUTLINE", th, s1, g0, []⟩] }
      | _ => .error .decode

/-- Route keepout section: owner and layers, then loop points. -/
noncomputable def handleRouteKeepout (st : ParseState) (sec : List String) :
    Except IdfError ParseState := do
  let (pts, seq') ← parseLoopPoints st.seq (sec.drop 2)
  match pointsToGeometry st.ucnv pts with
  | [] => .ok { st with seq := seq' }
  | g0 :: _ =>
      match sec with
      | s0 :: s1 :: _ =>
          .ok { st with
                seq := seq'
                routeKeepouts := st.routeKeepouts ++ [⟨s0, ".ROUTE_KEEPOUT", 0, s1, g0, []⟩] }
      | _ => .error .decode

/-- Via keepout section: owner only, then loop points; empty layers. -/
noncomputable def handleViaKeepout (st : ParseState) (sec : List String) :
    Except IdfError ParseState := do
  let (pts, seq') ← parseLoopPoints st.seq (sec.drop 1)
  match pointsToGeometry st.ucnv pts with
  | [] => .ok { st with seq := seq' }
  | g0 :: _ =>
      match sec with
      | s0 :: _ =>
          .ok { st with
                seq := seq'
                viaKeepouts := st.viaKeepouts ++ [⟨s0, ".VIA_KEEPOUT", 0, "", g0, []⟩] }
      | _ => .error .decode

/-- Place keepout section: owner, layers, thickness, then loop points. -/
noncomputable def handlePlaceKeepout (st : ParseState) (sec : List String) :
    Except IdfError ParseState := do
  let (pts, seq') ← parseLoopPoints st.seq (sec.drop 3)
  match pointsToGeometry st.ucnv pts with
  | [] => .ok { st with seq := seq' }
  | g0 :: _ =>
      match sec with
      | s0 :: s1 :: s2 :: _ => do
          let th ← req (parseFloat s2)
          .ok { st with
                seq := seq'
                placeKeepouts := st.placeKeepouts ++ [⟨s0, ".PLACE_KEEPOUT", th, s1, g0, []⟩] }
      | _ => .error .decode

def handleHoles (st : ParseState) (sec : List String) : Except IdfError ParseState := do
  let hs ← parseHoles st.ucnv sec
  .ok { st with holes := st.holes ++ hs }

def handleNotes (st : ParseState) (sec : List String) : Except IdfError ParseState := do
  let ns ← parseNotes st.ucnv sec
  .ok { st with notes := st.notes ++ ns }

def handlePlacementSec (st : ParseState) (sec : List String) : Except IdfError ParseState := do
  let ps ← parsePlacement st.ucnv sec
  .ok { st with placement := st.placement ++ ps }

/-- Locate the section's end marker in the remaining tokens, run the
section handler on the enclosed slice, and return the new state together
with the tokens after the marker. -/
noncomputable def sectionStep (handler : ParseState → List String → Except IdfError ParseState)
    (marker : String) (st : ParseState) (rest : List String) :
    Except IdfError (ParseState × List String) :=
  match findEnd marker rest with
  | none => .error (.sectionEndNotFound marker)
  | some p => (handler st (rest.take p)).map (fun st' => (st', rest.drop (p + 1)))

/-- The body of one iteration of the while loop of IdfParser.parse, with
the continuation k standing for the rest of the loop.  Recognized section
keywords dispatch to their handler and resume after the end marker;
anything else (the empty token included) is skipped one token at a
time. -/
noncomputable def scanBody (k : ParseState → List String → Except IdfError ParseState)
    (st : ParseState) (t : String) (rest : List String) : Except IdfError ParseState :=
  if t = ".HEADER" then
    match sectionStep handleHeader ".END_HEADER" st rest with
    | .error e => .error e
    | .ok (st', rest') => k st' rest'
  else if t = ".BOARD_OUTLINE" ∨ t = ".PANEL_OUTLINE" then
    match sectionStep (handleBoardOutline t) ".END_BOARD_OUTLINE" st rest with
    | .error e => .error e
    | .ok (st', rest') => k st' rest'
  else if t = ".OTHER_OUTLINE" then
    match sectionStep handleOtherOutline ".END_OTHER_OUTLINE" st rest with
    | .error e => .error e
    | .ok (st', rest') => k st' rest'
  else if t = ".ROUTE_OUTLINE" then
    match sectionStep handleRouteOutline ".END_ROUTE_OUTLINE" st rest with
    | .error e => .error e
    | .ok (st', rest') => k st' rest'
  else if t = ".PLACE_OUTLINE" then
    match sectionStep handlePlaceOutline ".END_PLACE_OUTLINE" st rest with
    | .error e => .error e
    | .ok (st', rest') => k st' rest'
  else if t = ".ROUTE_KEEPOUT" then
    match sectionStep handleRouteKeepout ".END_ROUTE_KEEPOUT" st rest with
    | .error e => .error e
    | .ok (st', rest') => k st' rest'
  else if t = ".VIA_KEEPOUT" then
    match sectionStep handleViaKeepout ".END_VIA_KEEPOUT" st rest with
    | .error e => .error e
    | .ok (st', rest') => k st' rest'
  else if t = ".PLACE_KEEPOUT" then
    match sectionStep handlePlaceKeepout ".END_PLACE_KEEPOUT" st rest with
    | .error e => .error e
    | .ok (st', rest') => k st' rest'
  else if t = ".DRILLED_HOLES" then
    match sectionStep handleHoles ".END_DRILLED_HOLES" st rest with
    | .error e => .error e
    | .ok (st', rest') => k st' rest'
  else if t = ".NOTES" then
    match sectionStep handleNotes ".END_NOTES" st rest with
    | .error e => .error e
    | .ok (st', rest') => k st' rest'
  else if t = ".PLACEMENT" then
    match sectionStep handlePlacementSec ".END_PLACEMENT" st rest with
    | .error e => .error e
    | .ok (st', rest') => k st' rest'
  else k st rest

/-- The while loop of IdfParser.parse.  One unit of fuel is one loop
iteration; the loop always advances, so fuel equal to the token count is
enough. -/
noncomputable def scanGo : ℕ → ParseState → List String → Except IdfError ParseState
  | _, st, [] => .ok st
  | 0, _, _ :: _ => .error .decode
  | fuel + 1, st, t :: rest => scanBody (scanGo fuel) st t rest

/-- Run the scanning loop over the whole token stream. -/
noncomputable def runScan (ts : List String) : Except IdfError ParseState :=
  scanGo ts.length initState ts

/-- The validation and assembly after the scanning loop of
IdfParser.parse: exactly one header and exactly one board outline are
required (each failure reports the observed count, the header check
first), then the file value is assembled. -/
def validateState (st : ParseState) : Except IdfError IdfFile :=
  match st.headers with
  | [hd] =>
      match st.boardOutlines with
      | [bo] =>
          .ok ⟨hd, bo.outline, bo.cutouts, st.otherOutlines, st.routeOutlines,
               st.routeKeepouts, st.viaKeepouts, st.placeKeepouts,
               st.holes, st.notes, st.placement⟩
      | bos => .error (.boardOutlineCount bos.length)
  | hds => .error (.headerCount hds.length)

/-- Port of IdfParser.parse on a token stream: scan all sections, then
validate and assemble. -/
noncomputable def parseTokens (ts : List String) : Except IdfError IdfFile :=
  match runScan ts with
  | .error e => .error e
  | .ok st => validateState st

/-! ## File-level tokenization

The source reads the file, replaces CRLF with LF, splits on LF, strips
each line, tokenizes it, and then removes all empty tokens. -/

/-- Python whitespace stripped by str.strip (the characters occurring in
this format). -/
def isStripChar (c : Char) : Bool :=
  c = ' ' ∨ c = '\t' ∨ c = '\r' ∨ c = '\n'

/-- str.strip: drop whitespace from both ends. -/
def stripChars (cs : List Char) : List Char :=
  ((cs.dropWhile isStripChar).reverse.dropWhile isStripChar).reverse

/-- content.replace of CRLF by LF. -/
def replaceCRLF : List Char → List Char
  | '\r' :: '\n' :: cs => '\n' :: replaceCRLF cs
  | c :: cs => c :: replaceCRLF cs
  | [] => []

/-- str.split on LF. -/
def splitLF : List Char → List (List Char)
  | [] => [[]]
  | '\n' :: cs => [] :: splitLF cs
  | c :: cs =>
      match splitLF cs with
      | l :: ls => (c :: l) :: ls
      | [] => [[c]]

/-- The token stream of a file's content: normalized line endings, each
line stripped and tokenized, empty tokens removed. -/
def tokenizeContent (content : String) : List String :=
  ((splitLF (replaceCRLF content.toList)).flatMap
      (fun l => tokenizeAux (stripChars l) false "")).filter (fun t => !(t = ""))

/-- The whole pipeline of IdfParser.parse on file content. -/
noncomputable def parseContent (content : String) : Except IdfError IdfFile :=
  parseTokens (tokenizeContent content)

/-- The error of a parse result, none on success. -/
def errOf {α : Type} : Except IdfError α → Option IdfError
  | .error e => some e
  | .ok _ => none

/-! ## Claim theorems -/

/-- C1: the claim says a vertex with bulge of absolute value 360 yields a
circle whose radius is half the distance between the previous point and
the vertex (25.0 with center (25, 25) for the points (0, 25) and (50, 25)).
The source instead passes the full distance as the radius and passes no
center at all: on the claim's concrete input (with either bulge 360 or
-360) the emitted circle has radius sqrt(2500) = 50, not 25; the loop
indeed contributes no other shape. -/
theorem full_circle_radius_is_full_distance :
    pointsToGeometry 1 [⟨0, 0, 0, 25, 0⟩, ⟨1, 0, 50, 25, 360⟩] =
      [Shape.circle (Real.sqrt ((2500 : ℚ) : ℝ))] ∧
    pointsToGeometry 1 [⟨0, 0, 0, 25, 0⟩, ⟨1, 0, 50, 25, -360⟩] =
      [Shape.circle (Real.sqrt ((2500 : ℚ) : ℝ))] ∧
    Real.sqrt ((2500 : ℚ) : ℝ) = 50 ∧ (50 : ℝ) ≠ 25 := by
  refine ⟨?_, ?_, ?_, by norm_num⟩
  · norm_num [pointsToGeometry, firstSeenKeys, groupOf, processLoop, sortById, insertById,
      walkVertex, finalizeLoop, isArc, ptVal, List.foldl, List.flatMap, List.filter,
      List.filterMap, List.any]
  · norm_num [pointsToGeometry, firstSeenKeys, groupOf, processLoop, sortById, insertById,
      walkVertex, finalizeLoop, isArc, ptVal, List.foldl, List.flatMap, List.filter,
      List.filterMap, List.any]
  · have h : ((2500 : ℚ) : ℝ) = 50 ^ 2 := by norm_num
    rw [h, Real.sqrt_sq (by norm_num : (0 : ℝ) ≤ 50)]

/-- C2: the claim says a finalized polygon's first and last points agree
within 1e-6, a closing point being appended when the source loop does not
already end at its first point.  The source has no closure logic at all:
an unclosed triangle is emitted exactly as read, with its last point
differing from its first by far more than the tolerance and no closing
point appended. -/
theorem polygon_not_closed_by_reconstructor :
    pointsToGeometry 1 [⟨0, 0, 0, 0, 0⟩, ⟨1, 0, 10, 0, 0⟩, ⟨2, 0, 5, 10, 0⟩] =
      [Shape.polygon [(0, 0), (10, 0), (5, 10)]] ∧
    [((0 : ℚ), (0 : ℚ)), (10, 0), (5, 10)].head? = some (0, 0) ∧
    [((0 : ℚ), (0 : ℚ)), (10, 0), (5, 10)].getLast? = some (5, 10) ∧
    (1e-6 : ℚ) < |5 - 0| := by
  refine ⟨?_, by decide, by decide, by norm_num⟩
  norm_num [pointsToGeometry, firstSeenKeys, groupOf, processLoop, sortById, insertById,
    walkVertex, finalizeLoop, isArc, ptVal, List.foldl, List.flatMap, List.filter,
    List.filterMap, List.any]

/-- C3: the claim says a decoded place-outline record is stored in a
collection of its own and never added to the route-outline collection.
The source appends it to the route-outline collection (and the file value
has no place-outline collection at all): parsing a file with one place
outline section yields a file whose route-outline collection holds exactly
that record. -/
theorem place_outline_stored_in_route_outlines :
    (parseTokens
      [".HEADER", "IDF_FILE", "3.0", "Test", "2024-01-01", "1", "Board", "MM", ".END_HEADER",
       ".BOARD_OUTLINE", "OWNER", "1.6", "0", "0", "0", "0", "0", "10", "0", "0",
       "0", "5", "10", "0", ".END_BOARD_OUTLINE",
       ".PLACE_OUTLINE", "OWNER", "TOP", "5.0", "0", "10", "10", "0", "0", "20", "10", "0",
       "0", "20", "20", "0", ".END_PLACE_OUTLINE"]).map
      (fun f => (f.route_outlines.map (fun o => (o.ident, o.owner, o.layers)),
                 f.other_outlines.length)) =
    .ok ([(".PLACE_OUTLINE", "OWNER", "TOP")], 0) := by decide

/-- The regression-test input for the empty quoted part number: a minimal
file whose placement record's second field is an explicitly empty quoted
string. -/
def emptyPartNumberContent : String :=
  ".HEADER\nIDF_FILE 3.0 \"Test\" \"2024-01-01\" 1 \"Board\" \"MM\"\n.END_HEADER\n\n.BOARD_OUTLINE \"OWNER\" 1.6\n0 0 0 0\n0 10 0 0\n0 5 10 0\n.END_BOARD_OUTLINE\n\n.PLACEMENT\n\"PKG\" \"\" \"R1\" 5 5 0 0 \"TOP\" \"PLACED\"\n.END_PLACEMENT\n"

/-- C4: the claim says the empty quoted literal's token survives to record
decoding, so the placement record parses with an empty part number.  The
tokenizer does yield exactly one empty-string token for it, but parse then
filters all empty tokens out of the stream before scanning: on the
concrete file the empty token is present after line tokenization and gone
from the final stream, and the placement section decodes to no part at all
(the eight remaining tokens are fewer than one nine-field record) instead
of one part with an empty part number. -/
theorem empty_quoted_token_dropped_before_decoding :
    tokenizeLine "\"\"" = [""] ∧
    ("" ∈ (splitLF (replaceCRLF emptyPartNumberContent.toList)).flatMap
        (fun l => tokenizeAux (stripChars l) false "")) ∧
    ("" ∉ tokenizeContent emptyPartNumberContent) ∧
    (parseContent emptyPartNumberContent).map (fun f => f.placement.length) = .ok 0 := by
  exact ⟨by decide, by decide, by decide, by decide⟩

/-- C7: the claim says the header and hole decoders are dialect-aware,
falling back to the reduced IDF 2.0 field set with missing trailing fields
defaulted to the empty string.  Both decoders use one fixed layout: a
header section with the five-field reduced set fails to decode instead of
defaulting name and units, and the repository's own IDF 2.0 hole fixture
(two five-field records) decodes as one misaligned seven-field hole whose
type and owner fields hold the next record's numbers, instead of two holes
with empty type and owner. -/
theorem hole_decoder_single_dialect :
    decodeHeader ["BOARD_FILE", "2.0", "TestCAD", "2024/01/01", "1"] = .error .decode ∧
    (parseHoles 1 ["2.0", "10", "15", "PTH", "VIA", "3.0", "50", "25", "NPTH", "MTG"]).map
      (fun hs => hs.map (fun h => (h.plating, h.assoc, h.type, h.owner))) =
    .ok [("PTH", "VIA", "3.0", "50")] := by
  exact ⟨by decide, by decide⟩

/-- C8: the claim says that outside quoted literals every run of spaces or
tabs separates tokens, so no space and no tab appears inside a produced
token.  The tokenizer treats only the space character as a separator: a
tab between two fields is accumulated into the token, so the line with a
tab yields one token containing the tab where the same line with a space
yields two tokens. -/
theorem tab_not_a_separator :
    tokenizeLine "a\tb" = ["a\tb"] ∧
    tokenizeLine "a b" = ["a", "b"] ∧
    (∃ t ∈ tokenizeLine "a\tb", '\t' ∈ t.toList) := by
  exact ⟨by decide, by decide, "a\tb", by decide, by decide⟩

/-- Two triangular loops whose loop indices first appear out of numeric
order: loop 1's three vertices come before loop 0's in the file. -/
def loopOrderInput : List LoopPoint :=
  [⟨0, 1, 0, 0, 0⟩, ⟨1, 1, 10, 0, 0⟩, ⟨2, 1, 5, 10, 0⟩,
   ⟨3, 0, 20, 0, 0⟩, ⟨4, 0, 30, 0, 0⟩, ⟨5, 0, 25, 10, 0⟩]

/-- Two loops of which loop 0 holds three straight vertices and one
full-circle vertex, so that one loop yields two shapes (a circle and a
polygon) while loop 1 yields one. -/
def multiShapeLoopInput : List LoopPoint :=
  [⟨0, 0, 0, 0, 0⟩, ⟨1, 0, 10, 0, 0⟩, ⟨2, 0, 5, 10, 0⟩, ⟨3, 0, 20, 0, 360⟩,
   ⟨4, 1, 30, 0, 0⟩, ⟨5, 1, 40, 0, 0⟩, ⟨6, 1, 35, 10, 0⟩]

/-- C9 counterexample: the claim says the shapes are listed exactly one
per loop in ascending loop-index order regardless of the order in which
loop indices first appear.  Both parts fail.  On an input whose loop 1
appears before loop 0, the grouping dictionary's keys are iterated in
first-seen order [1, 0], so loop 1's polygon is listed first and becomes
the outline, although loop 0's (different) polygon would come first in
ascending loop-index order.  And on an input whose loop 0 carries three
straight vertices and one full-circle vertex, loop 0 alone yields two
shapes (the circle of radius sqrt(325) and a polygon), so the output has
three shapes for two loops, not one shape per loop. -/
theorem loops_not_in_ascending_index_order :
    (pointsToGeometry 1 loopOrderInput =
      [Shape.polygon [(0, 0), (10, 0), (5, 10)],
       Shape.polygon [(20, 0), (30, 0), (25, 10)]] ∧
     firstSeenKeys loopOrderInput = [1, 0] ∧
     (groupOf loopOrderInput 1).map (fun p => p.loop_n) = [1, 1, 1] ∧
     [((0 : ℚ), (0 : ℚ)), (10, 0), (5, 10)] ≠ [((20 : ℚ), (0 : ℚ)), (30, 0), (25, 10)]) ∧
    (pointsToGeometry 1 multiShapeLoopInput =
      [Shape.circle (Real.sqrt ((325 : ℚ) : ℝ)),
       Shape.polygon [(0, 0), (10, 0), (5, 10)],
       Shape.polygon [(30, 0), (40, 0), (35, 10)]] ∧
     firstSeenKeys multiShapeLoopInput = [0, 1] ∧
     (pointsToGeometry 1 multiShapeLoopInput).length = 3 ∧
     (firstSeenKeys multiShapeLoopInput).length = 2) := by
  refine ⟨⟨?_, by decide, by decide, by decide⟩, ?_, by decide, ?_, by decide⟩
  · norm_num [pointsToGeometry, loopOrderInput, firstSeenKeys, groupOf, processLoop, sortById,
      insertById, walkVertex, finalizeLoop, isArc, ptVal, List.foldl, List.flatMap, List.filter,
      List.filterMap, List.any]
  · norm_num [pointsToGeometry, multiShapeLoopInput, firstSeenKeys, groupOf, processLoop,
      sortById, insertById, walkVertex, finalizeLoop, isArc, ptVal, List.foldl, List.flatMap,
      List.filter, List.filterMap, List.any]
  · norm_num [pointsToGeometry, multiShapeLoopInput, firstSeenKeys, groupOf, processLoop,
      sortById, insertById, walkVertex, finalizeLoop, isArc, ptVal, List.foldl, List.flatMap,
      List.filter, List.filterMap, List.any]

/-- One vertex-walk step extends the circle list only by circle shapes. -/
lemma walkVertex_circles (u : ℚ) (st : WalkState) (p : LoopPoint) :
    ∃ tail, (walkVertex u st p).circles = st.circles ++ tail ∧
      ∀ c ∈ tail, ∃ r, c = Shape.circle r := by
  unfold walkVertex
  split_ifs with h1 h2
  · exact ⟨[], by simp, by simp⟩
  · refine ⟨[Shape.circle _], rfl, ?_⟩
    intro c hc
    exact ⟨_, by simpa using hc⟩
  · cases h : arcStep st.cur.1 st.cur.2 (p.x * u) (p.y * u) p.angle with
    | none => exact ⟨[], by simp [h], by simp⟩
    | some a => exact ⟨[], by simp [h], by simp⟩

/-- Along the whole vertex walk, everything in the circle list is a
circle shape. -/
lemma foldl_walk_circles (u : ℚ) : ∀ (pts : List LoopPoint) (st : WalkState),
    (∀ c ∈ st.circles, ∃ r, c = Shape.circle r) →
    ∀ c ∈ (pts.foldl (walkVertex u) st).circles, ∃ r, c = Shape.circle r := by
  intro pts
  induction pts with
  | nil => intro st h; simpa using h
  | cons p ps ih =>
      intro st h
      simp only [List.foldl_cons]
      apply ih
      obtain ⟨tail, heq, htail⟩ := walkVertex_circles u st p
      rw [heq]
      intro c hc
      rcases List.mem_append.mp hc with h' | h'
      · exact h c h'
      · exact htail c h'

/-- The end-of-loop construction emits at most one shape. -/
lemma finalizeLoop_length_le (elements : List GeomElement) :
    (finalizeLoop elements).length ≤ 1 := by
  unfold finalizeLoop
  split_ifs with h
  · simp
  · dsimp only
    split_ifs <;> simp

lemma firstSeenKeys_foldl_mem (pts : List LoopPoint) (acc : List ℤ) (k : ℤ) :
    (k ∈ pts.foldl (fun ks p => if p.loop_n ∈ ks then ks else ks ++ [p.loop_n]) acc) ↔
      k ∈ acc ∨ k ∈ pts.map (fun p => p.loop_n) := by
  induction pts generalizing acc with
  | nil => simp
  | cons p ps ih =>
      simp only [List.foldl_cons, List.map_cons, List.mem_cons]
      by_cases h : p.loop_n ∈ acc
      · rw [if_pos h, ih]
        constructor
        · tauto
        · rintro (hk | rfl | hk) <;> tauto
      · rw [if_neg h, ih]
        simp only [List.mem_append, List.mem_singleton]
        tauto

lemma firstSeenKeys_foldl_nodup (pts : List LoopPoint) (acc : List ℤ) (hacc : acc.Nodup) :
    (pts.foldl (fun ks p => if p.loop_n ∈ ks then ks else ks ++ [p.loop_n]) acc).Nodup := by
  induction pts generalizing acc with
  | nil => exact hacc
  | cons p ps ih =>
      simp only [List.foldl_cons]
      by_cases h : p.loop_n ∈ acc
      · rw [if_pos h]; exact ih acc hacc
      · rw [if_neg h]
        refine ih _ ?_
        simp [List.nodup_append, hacc, h]

/-- C9 amended: the reconstructor's output is the concatenation, over the
loop indices in order of their first appearance in the vertex list (the
grouping dictionary's insertion order, each distinct loop index visited
exactly once), of each loop's shapes; a loop contributes the circles of
its full-circle vertices followed by at most one polygon or arc-polygon,
so it can contribute no shape or several rather than exactly one; and at
the parse level the first emitted shape of a board-outline section
becomes the outline while all later shapes become its cutouts, whatever
their numeric loop indices. -/
theorem loops_emitted_in_first_seen_order (u : ℚ) (pts : List LoopPoint) :
    pointsToGeometry u pts =
      (firstSeenKeys pts).flatMap (fun k => processLoop u (groupOf pts k)) ∧
    (∀ lp : List LoopPoint, ∃ cs fin : List Shape,
      processLoop u lp = cs ++ fin ∧
      (∀ c ∈ cs, ∃ r, c = Shape.circle r) ∧
      fin.length ≤ 1) ∧
    (firstSeenKeys pts).Nodup ∧
    (∀ k, k ∈ firstSeenKeys pts ↔ k ∈ pts.map (fun p => p.loop_n)) ∧
    (∀ (ident : String) (st : ParseState) (sec : List String) (st' : ParseState)
        (g0 : Shape) (grest : List Shape) (lps : List LoopPoint) (seq' : ℕ),
      parseLoopPoints st.seq (sec.drop 2) = .ok (lps, seq') →
      pointsToGeometry st.ucnv lps = g0 :: grest →
      handleBoardOutline ident st sec = .ok st' →
      ∃ rec, st'.boardOutlines = st.boardOutlines ++ [rec] ∧
        rec.outline = g0 ∧ rec.cutouts = grest) := by
  refine ⟨rfl, ?_, firstSeenKeys_foldl_nodup pts [] (by simp),
    fun k => by simpa using firstSeenKeys_foldl_mem pts [] k, ?_⟩
  · intro lp
    unfold processLoop
    cases hs : sortById lp with
    | nil =>
        simp only [hs]
        exact ⟨[], [], rfl, by simp, by simp⟩
    | cons p0 rest =>
        simp only [hs]
        refine ⟨_, _, rfl, ?_, finalizeLoop_length_le _⟩
        exact foldl_walk_circles u (p0 :: rest) ⟨(p0.x * u, p0.y * u), [], []⟩ (by simp)
  · intro ident st sec st' g0 grest lps seq' hlp hg hh
    unfold handleBoardOutline at hh
    rw [hlp] at hh
    simp only [bind, Except.bind] at hh
    rw [hg] at hh
    match sec with
    | s0 :: s1 :: srest =>
        dsimp only at hh
        cases hf : parseFloat s1 with
        | none => rw [hf] at hh; simp [req] at hh
        | some th =>
            rw [hf] at hh
            simp only [req, Except.ok.injEq] at hh
            exact ⟨⟨s0, ident, th, "", g0, grest⟩, by rw [← hh], rfl, rfl⟩
    | [] => dsimp only at hh; simp at hh
    | [s0] => dsimp only at hh; simp at hh

/-! ## Error taxonomy of the scanning loop

The scanning loop can fail only with a missing-end-marker error or a
decode error; the two cardinality errors are raised exclusively by the
validation that runs after the loop has consumed the whole stream. -/

/-- Errors that are not cardinality errors. -/
def notCardinality : IdfError → Prop
  | .headerCount _ => False
  | .boardOutlineCount _ => False
  | _ => True

lemma bindE_error {α β : Type} {x : Except IdfError α} {f : α → Except IdfError β}
    {e : IdfError} (h : (x >>= f) = .error e) :
    x = .error e ∨ ∃ a, x = .ok a ∧ f a = .error e := by
  cases x with
  | error e' =>
      left
      simpa [bind, Except.bind] using h
  | ok a =>
      right
      exact ⟨a, rfl, by simpa [bind, Except.bind] using h⟩

lemma req_error {α : Type} {o : Option α} {e : IdfError} (h : req o = .error e) :
    e = .decode := by
  cases o with
  | some a => simp [req] at h
  | none => simpa [req, eq_comm] using h

lemma parseLoopPoints_error : ∀ (seq : ℕ) (l : List String) (e : IdfError),
    parseLoopPoints seq l = .error e → e = .decode := by
  intro seq l
  induction seq, l using parseLoopPoints.induct with
  | case1 seq a b c d rest ih =>
      intro e h
      simp only [parseLoopPoints] at h
      rcases bindE_error h with h1 | ⟨ln, _, h2⟩
      · exact req_error h1
      rcases bindE_error h2 with h3 | ⟨x, _, h4⟩
      · exact req_error h3
      rcases bindE_error h4 with h5 | ⟨y, _, h6⟩
      · exact req_error h5
      rcases bindE_error h6 with h7 | ⟨ang, _, h8⟩
      · exact req_error h7
      rcases bindE_error h8 with h9 | ⟨⟨ps, seq2⟩, _, h10⟩
      · exact ih _ h9
      · simp at h10
  | case2 t seq hne =>
      intro e h
      match t, hne with
      | [], _ => simp [parseLoopPoints] at h
      | [a], _ => simp [parseLoopPoints] at h
      | [a, b], _ => simp [parseLoopPoints] at h
      | [a, b, c], _ => simp [parseLoopPoints] at h
      | a :: b :: c :: d :: rest, hne => exact absurd rfl (hne a b c d rest)

lemma parseHoles_error : ∀ (u : ℚ) (l : List String) (e : IdfError),
    parseHoles u l = .error e → e = .decode := by
  intro u l
  induction l using parseHoles.induct u with
  | case1 d x y pl asc ty ow rest ih =>
      intro e h
      simp only [parseHoles] at h
      rcases bindE_error h with h1 | ⟨_, _, h2⟩
      · exact req_error h1
      rcases bindE_error h2 with h3 | ⟨_, _, h4⟩
      · exact req_error h3
      rcases bindE_error h4 with h5 | ⟨_, _, h6⟩
      · exact req_error h5
      rcases bindE_error h6 with h7 | ⟨_, _, h8⟩
      · exact ih _ h7
      · simp at h8
  | case2 t hne =>
      intro e h
      match t, hne with
      | [], _ => simp [parseHoles] at h
      | [a], _ => simp [parseHoles] at h
      | [a, b], _ => simp [parseHoles] at h
      | [a, b, c], _ => simp [parseHoles] at h
      | [a, b, c, d], _ => simp [parseHoles] at h
      | [a, b, c, d, f], _ => simp [parseHoles] at h
      | [a, b, c, d, f, g], _ => simp [parseHoles] at h
      | a :: b :: c :: d :: f :: g :: k :: rest, hne => exact absurd rfl (hne a b c d f g k rest)

lemma parseNotes_error : ∀ (u : ℚ) (l : List String) (e : IdfError),
    parseNotes u l = .error e → e = .decode := by
  intro u l
  induction l using parseNotes.induct u with
  | case1 x y hh ll t rest ih =>
      intro e h
      simp only [parseNotes] at h
      rcases bindE_error h with h1 | ⟨_, _, h2⟩
      · exact req_error h1
      rcases bindE_error h2 with h3 | ⟨_, _, h4⟩
      · exact req_error h3
      rcases bindE_error h4 with h5 | ⟨_, _, h6⟩
      · exact req_error h5
      rcases bindE_error h6 with h7 | ⟨_, _, h8⟩
      · exact req_error h7
      rcases bindE_error h8 with h9 | ⟨_, _, h10⟩
      · exact ih _ h9
      · simp at h10
  | case2 t hne =>
      intro e h
      match t, hne with
      | [], _ => simp [parseNotes] at h
      | [a], _ => simp [parseNotes] at h
      | [a, b], _ => simp [parseNotes] at h
      | [a, b, c], _ => simp [parseNotes] at h
      | [a, b, c, d], _ => simp [parseNotes] at h
      | a :: b :: c :: d :: f :: rest, hne => exact absurd rfl (hne a b c d f rest)

lemma parsePlacement_error : ∀ (u : ℚ) (l : List String) (e : IdfError),
    parsePlacement u l = .error e → e = .decode := by
  intro u l
  induction l using parsePlacement.induct u with
  | case1 pkg pn rd x y off ang sd stt rest ih =>
      intro e h
      simp only [parsePlacement] at h
      rcases bindE_error h with h1 | ⟨_, _, h2⟩
      · exact req_error h1
      rcases bindE_error h2 with h3 | ⟨_, _, h4⟩
      · exact req_error h3
      rcases bindE_error h4 with h5 | ⟨_, _, h6⟩
      · exact req_error h5
      rcases bindE_error h6 with h7 | ⟨_, _, h8⟩
      · exact req_error h7
      rcases bindE_error h8 with h9 | ⟨_, _, h10⟩
      · exact ih _ h9
      · simp at h10
  | case2 t hne =>
      intro e h
      match t, hne with
      | [], _ => simp [parsePlacement] at h
      | [a], _ => simp [parsePlacement] at h
      | [a, b], _ => simp [parsePlacement] at h
      | [a, b, c], _ => simp [parsePlacement] at h
      | [a, b, c, d], _ => simp [parsePlacement] at h
      | [a, b, c, d, f], _ => simp [parsePlacement] at h
      | [a, b, c, d, f, g], _ => simp [parsePlacement] at h
      | [a, b, c, d, f, g, k], _ => simp [parsePlacement] at h
      | [a, b, c, d, f, g, k, m], _ => simp [parsePlacement] at h
      | a :: b :: c :: d :: f :: g :: k :: m :: n :: rest, hne =>
          exact absurd rfl (hne a b c d f g k m n rest)

lemma decodeHeader_error {l : List String} {e : IdfError}
    (h : decodeHeader l = .error e) : e = .decode := by
  match l with
  | t0 :: t1 :: t2 :: t3 :: t4 :: t5 :: t6 :: rest =>
      simp only [decodeHeader] at h
      rcases bindE_error h with h1 | ⟨_, _, h2⟩
      · exact req_error h1
      rcases bindE_error h2 with h3 | ⟨_, _, h4⟩
      · exact req_error h3
      · simp at h4
  | [] => simpa [decodeHeader, eq_comm] using h
  | [a] => simpa [decodeHeader, eq_comm] using h
  | [a, b] => simpa [decodeHeader, eq_comm] using h
  | [a, b, c] => simpa [decodeHeader, eq_comm] using h
  | [a, b, c, d] => simpa [decodeHeader, eq_comm] using h
  | [a, b, c, d, f] => simpa [decodeHeader, eq_comm] using h
  | [a, b, c, d, f, g] => simpa [decodeHeader, eq_comm] using h

lemma handleHeader_error {st : ParseState} {sec : List String} {e : IdfError}
    (h : handleHeader st sec = .error e) : e = .decode := by
  unfold handleHeader at h
  rcases bindE_error h with h1 | ⟨_, _, h2⟩
  · exact decodeHeader_error h1
  · simp at h2

lemma handleOutline_error_aux {e : IdfError}
    {res : Except IdfError (List LoopPoint × ℕ)}
    {k : List LoopPoint × ℕ → Except IdfError ParseState}
    (hres : ∀ e', res = .error e' → e' = .decode)
    (hk : ∀ x e', k x = .error e' → e' = .decode)
    (h : (res >>= k) = .error e) : e = .decode := by
  rcases bindE_error h with h1 | ⟨x, _, h2⟩
  · exact hres e h1
  · exact hk x e h2

lemma handleBoardOutline_error {ident : String} {st : ParseState} {sec : List String}
    {e : IdfError} (h : handleBoardOutline ident st sec = .error e) : e = .decode := by
  unfold handleBoardOutline at h
  refine handleOutline_error_aux (fun e' h' => parseLoopPoints_error _ _ _ h') ?_ h
  rintro ⟨lps, seq'⟩ e' hk
  dsimp only at hk
  split at hk
  · simp at hk
  · split at hk
    · rcases bindE_error hk with h1 | ⟨_, _, h2⟩
      · exact req_error h1
      · simp at h2
    · simpa [eq_comm] using hk

lemma handleOtherOutline_error {st : ParseState} {sec : List String}
    {e : IdfError} (h : handleOtherOutline st sec = .error e) : e = .decode := by
  unfold handleOtherOutline at h
  refine handleOutline_error_aux (fun e' h' => parseLoopPoints_error _ _ _ h') ?_ h
  rintro ⟨lps, seq'⟩ e' hk
  dsimp only at hk
  split at hk
  · simp at hk
  · split at hk
    · rcases bindE_error hk with h1 | ⟨_, _, h2⟩
      · exact req_error h1
      · simp at h2
    · simpa [eq_comm] using hk

lemma handleRouteOutline_error {st : ParseState} {sec : List String}
    {e : IdfError} (h : handleRouteOutline st sec = .error e) : e = .decode := by
  unfold handleRouteOutline at h
  refine handleOutline_error_aux (fun e' h' => parseLoopPoints_error _ _ _ h') ?_ h
  rintro ⟨lps, seq'⟩ e' hk
  dsimp only at hk
  split at hk
  · simp at hk
  · split at hk
    · simp at hk
    · simpa [eq_comm] using hk

lemma handlePlaceOutline_error {st : ParseState} {sec : List String}
    {e : IdfError} (h : handlePlaceOutline st sec = .error e) : e = .decode := by
  unfold handlePlaceOutline at h
  refine handleOutline_error_aux (fun e' h' => parseLoopPoints_error _ _ _ h') ?_ h
  rintro ⟨lps, seq'⟩ e' hk
  dsimp only at hk
  split at hk
  · simp at hk
  · split at hk
    · rcases bindE_error hk with h1 | ⟨_, _, h2⟩
      · exact req_error h1
      · simp at h2
    · simpa [eq_comm] using hk

lemma handleRouteKeepout_error {st : ParseState} {sec : List String}
    {e : IdfError} (h : handleRouteKeepout st sec = .error e) : e = .decode := by
  unfold handleRouteKeepout at h
  refine handleOutline_error_aux (fun e' h' => parseLoopPoints_error _ _ _ h') ?_ h
  rintro ⟨lps, seq'⟩ e' hk
  dsimp only at hk
  split at hk
  · simp at hk
  · split at hk
    · simp at hk
    · simpa [eq_comm] using hk

lemma handleViaKeepout_error {st : ParseState} {sec : List String}
    {e : IdfError} (h : handleViaKeepout st sec = .error e) : e = .decode := by
  unfold handleViaKeepout at h
  refine handleOutline_error_aux (fun e' h' => parseLoopPoints_error _ _ _ h') ?_ h
  rintro ⟨lps, seq'⟩ e' hk
  dsimp only at hk
  split at hk
  · simp at hk
  · split at hk
    · simp at hk
    · simpa [eq_comm] using hk

lemma handlePlaceKeepout_error {st : ParseState} {sec : List String}
    {e : IdfError} (h : handlePlaceKeepout st sec = .error e) : e = .decode := by
  unfold handlePlaceKeepout at h
  refine handleOutline_error_aux (fun e' h' => parseLoopPoints_error _ _ _ h') ?_ h
  rintro ⟨lps, seq'⟩ e' hk
  dsimp only at hk
  split at hk
  · simp at hk
  · split at hk
    · rcases bindE_error hk with h1 | ⟨_, _, h2⟩
      · exact req_error h1
      · simp at h2
    · simpa [eq_comm] using hk

lemma handleHoles_error {st : ParseState} {sec : List String}
    {e : IdfError} (h : handleHoles st sec = .error e) : e = .decode := by
  unfold handleHoles at h
  rcases bindE_error h with h1 | ⟨_, _, h2⟩
  · exact parseHoles_error _ _ _ h1
  · simp at h2

lemma handleNotes_error {st : ParseState} {sec : List String}
    {e : IdfError} (h : handleNotes st sec = .error e) : e = .decode := by
  unfold handleNotes at h
  rcases bindE_error h with h1 | ⟨_, _, h2⟩
  · exact parseNotes_error _ _ _ h1
  · simp at h2

lemma handlePlacementSec_error {st : ParseState} {sec : List String}
    {e : IdfError} (h : handlePlacementSec st sec = .error e) : e = .decode := by
  unfold handlePlacementSec at h
  rcases bindE_error h with h1 | ⟨_, _, h2⟩
  · exact parsePlacement_error _ _ _ h1
  · simp at h2

lemma sectionStep_error {handler : ParseState → List String → Except IdfError ParseState}
    {marker : String} {st : ParseState} {rest : List String} {e : IdfError}
    (hh : ∀ st' sec e', handler st' sec = .error e' → e' = .decode)
    (h : sectionStep handler marker st rest = .error e) :
    e = .sectionEndNotFound marker ∨ e = .decode := by
  unfold sectionStep at h
  cases hf : findEnd marker rest with
  | none =>
      rw [hf] at h
      dsimp only at h
      left
      simpa [eq_comm] using h
  | some p =>
      rw [hf] at h
      dsimp only at h
      cases hr : handler st (rest.take p) with
      | error e' =>
          rw [hr] at h
          simp only [Except.map, Except.error.injEq] at h
          right; rw [← h]; exact hh _ _ _ hr
      | ok st' => rw [hr] at h; simp [Except.map] at h

lemma scanStep_error {st : ParseState} {rest : List String} {e : IdfError}
    {marker : String} {handler : ParseState → List String → Except IdfError ParseState}
    {k : ParseState → List String → Except IdfError ParseState}
    (hh : ∀ st' sec e', handler st' sec = .error e' → e' = .decode)
    (ihk : ∀ (st : ParseState) (ts : List String) (e : IdfError),
        k st ts = .error e → notCardinality e)
    (h : (match sectionStep handler marker st rest with
          | Except.error err => Except.error err
          | Except.ok (st', rest') => k st' rest') = Except.error e) :
    notCardinality e := by
  split at h
  · rename_i e' hs
    cases h
    rcases sectionStep_error hh hs with h' | h' <;> (rw [h']; trivial)
  · exact ihk _ _ _ h

lemma scanGo_nil (fuel : ℕ) (st : ParseState) : scanGo fuel st [] = .ok st := by
  cases fuel <;> rfl

/-- Every failure of the scanning loop is a missing-end-marker or decode
failure; the cardinality errors can only come from the validation after
the loop. -/
lemma scanGo_error : ∀ (fuel : ℕ) (st : ParseState) (ts : List String) (e : IdfError),
    scanGo fuel st ts = .error e → notCardinality e := by
  intro fuel
  induction fuel with
  | zero =>
      intro st ts e h
      cases ts with
      | nil => rw [scanGo_nil] at h; exact Except.noConfusion h
      | cons t rest =>
          rw [show scanGo 0 st (t :: rest) = .error .decode from rfl] at h
          cases h
          trivial
  | succ fuel ih =>
      intro st ts e h
      cases ts with
      | nil => rw [scanGo_nil] at h; exact Except.noConfusion h
      | cons t rest =>
          rw [show scanGo (fuel + 1) st (t :: rest) = scanBody (scanGo fuel) st t rest
                from rfl] at h
          unfold scanBody at h
          by_cases h1 : t = ".HEADER"
          · rw [if_pos h1] at h
            exact scanStep_error (fun _ _ _ hx => handleHeader_error hx) ih h
          rw [if_neg h1] at h
          by_cases h2 : t = ".BOARD_OUTLINE" ∨ t = ".PANEL_OUTLINE"
          · rw [if_pos h2] at h
            exact scanStep_error (fun _ _ _ hx => handleBoardOutline_error hx) ih h
          rw [if_neg h2] at h
          by_cases h3 : t = ".OTHER_OUTLINE"
          · rw [if_pos h3] at h
            exact scanStep_error (fun _ _ _ hx => handleOtherOutline_error hx) ih h
          rw [if_neg h3] at h
          by_cases h4 : t = ".ROUTE_OUTLINE"
          · rw [if_pos h4] at h
            exact scanStep_error (fun _ _ _ hx => handleRouteOutline_error hx) ih h
          rw [if_neg h4] at h
          by_cases h5 : t = ".PLACE_OUTLINE"
          · rw [if_pos h5] at h
            exact scanStep_error (fun _ _ _ hx => handlePlaceOutline_error hx) ih h
          rw [if_neg h5] at h
          by_cases h6 : t = ".ROUTE_KEEPOUT"
          · rw [if_pos h6] at h
            exact scanStep_error (fun _ _ _ hx => handleRouteKeepout_error hx) ih h
          rw [if_neg h6] at h
          by_cases h7 : t = ".VIA_KEEPOUT"
          · rw [if_pos h7] at h
            exact scanStep_error (fun _ _ _ hx => handleViaKeepout_error hx) ih h
          rw [if_neg h7] at h
          by_cases h8 : t = ".PLACE_KEEPOUT"
          · rw [if_pos h8] at h
            exact scanStep_error (fun _ _ _ hx => handlePlaceKeepout_error hx) ih h
          rw [if_neg h8] at h
          by_cases h9 : t = ".DRILLED_HOLES"
          · rw [if_pos h9] at h
            exact scanStep_error (fun _ _ _ hx => handleHoles_error hx) ih h
          rw [if_neg h9] at h
          by_cases h10 : t = ".NOTES"
          · rw [if_pos h10] at h
            exact scanStep_error (fun _ _ _ hx => handleNotes_error hx) ih h
          rw [if_neg h10] at h
          by_cases h11 : t = ".PLACEMENT"
          · rw [if_pos h11] at h
            exact scanStep_error (fun _ _ _ hx => handlePlacementSec_error hx) ih h
          rw [if_neg h11] at h
          exact ih _ _ _ h

/-- C5: parsing fails with a cardinality error, carrying the observed
count, exactly when the fully scanned stream produced a number of headers
other than one (reported first) or, with exactly one header, a number of
board/panel outlines other than one; a cardinality error can only arise
after the scanning loop consumed the whole stream successfully, and every
successful parse saw exactly one header and exactly one board outline
(the file's single top-level outline shape). -/
theorem parse_cardinality_iff (ts : List String) :
    (∀ f, parseTokens ts = .ok f →
        ∃ st, runScan ts = .ok st ∧ st.headers.length = 1 ∧ st.boardOutlines.length = 1 ∧
          st.headers = [f.header] ∧ (st.boardOutlines.map (fun o => o.outline)) =
            [f.board_outline]) ∧
    (∀ n, parseTokens ts = .error (.headerCount n) ↔
        ∃ st, runScan ts = .ok st ∧ st.headers.length = n ∧ n ≠ 1) ∧
    (∀ n, parseTokens ts = .error (.boardOutlineCount n) ↔
        ∃ st, runScan ts = .ok st ∧ st.headers.length = 1 ∧
          st.boardOutlines.length = n ∧ n ≠ 1) := by
  cases hsc : runScan ts with
  | error e =>
      have hpt : parseTokens ts = .error e := by simp only [parseTokens, hsc]
      have hnc := scanGo_error ts.length initState ts e hsc
      refine ⟨fun f hf => by rw [hpt] at hf; exact Except.noConfusion hf,
        fun n => ⟨fun h => ?_, fun hex => ?_⟩, fun n => ⟨fun h => ?_, fun hex => ?_⟩⟩
      · rw [hpt] at h
        simp only [Except.error.injEq] at h
        rw [h] at hnc
        exact absurd hnc (by simp [notCardinality])
      · obtain ⟨st, hst, -⟩ := hex
        exact Except.noConfusion hst
      · rw [hpt] at h
        simp only [Except.error.injEq] at h
        rw [h] at hnc
        exact absurd hnc (by simp [notCardinality])
      · obtain ⟨st, hst, -⟩ := hex
        exact Except.noConfusion hst
  | ok st =>
      have hpt : parseTokens ts = validateState st := by simp only [parseTokens, hsc]
      have hmain :
          (∀ f, validateState st = .ok f →
              st.headers.length = 1 ∧ st.boardOutlines.length = 1 ∧
              st.headers = [f.header] ∧
              (st.boardOutlines.map (fun o => o.outline)) = [f.board_outline]) ∧
          (∀ n, validateState st = .error (.headerCount n) ↔
              st.headers.length = n ∧ n ≠ 1) ∧
          (∀ n, validateState st = .error (.boardOutlineCount n) ↔
              st.headers.length = 1 ∧ st.boardOutlines.length = n ∧ n ≠ 1) := by
        rcases hh : st.headers with _ | ⟨hd, _ | ⟨h2, hs⟩⟩
        · refine ⟨fun f hf => ?_, fun n => ?_, fun n => ?_⟩
          · simp [validateState, hh] at hf
          · simp only [validateState, hh]
            constructor
            · intro hx
              simp only [Except.error.injEq, IdfError.headerCount.injEq] at hx
              simp [← hx]
            · rintro ⟨h1, h2⟩
              simp only [List.length_nil] at h1
              simp [← h1]
          · simp [validateState, hh]
        · rcases hb : st.boardOutlines with _ | ⟨bo, _ | ⟨b2, bs⟩⟩
          · refine ⟨fun f hf => ?_, fun n => ?_, fun n => ?_⟩
            · simp [validateState, hh, hb] at hf
            · simp only [validateState, hh, hb]
              constructor
              · intro hx; exact absurd hx (by simp)
              · rintro ⟨h1, h2⟩; simp at h1; omega
            · simp only [validateState, hh, hb]
              constructor
              · intro hx
                simp only [Except.error.injEq, IdfError.boardOutlineCount.injEq] at hx
                simp [← hx, hh]
              · rintro ⟨h1, h2, h3⟩
                simp only [List.length_nil] at h2
                simp [← h2]
          · refine ⟨fun f hf => ?_, fun n => ?_, fun n => ?_⟩
            · have hv : validateState st =
                  .ok ⟨hd, bo.outline, bo.cutouts, st.otherOutlines, st.routeOutlines,
                       st.routeKeepouts, st.viaKeepouts, st.placeKeepouts,
                       st.holes, st.notes, st.placement⟩ := by
                simp [validateState, hh, hb]
              rw [hv] at hf
              simp only [Except.ok.injEq] at hf
              subst hf
              simp [hh, hb]
            · simp only [validateState, hh, hb]
              constructor
              · intro hx; exact absurd hx (by simp)
              · rintro ⟨h1, h2⟩; simp at h1; omega
            · simp only [validateState, hh, hb]
              constructor
              · intro hx; exact absurd hx (by simp)
              · rintro ⟨h1, h2, h3⟩; simp at h2; omega
          · refine ⟨fun f hf => ?_, fun n => ?_, fun n => ?_⟩
            · simp [validateState, hh, hb] at hf
            · simp only [validateState, hh, hb]
              constructor
              · intro hx; exact absurd hx (by simp)
              · rintro ⟨h1, h2⟩; simp at h1; omega
            · simp only [validateState, hh, hb]
              constructor
              · intro hx
                simp only [Except.error.injEq, IdfError.boardOutlineCount.injEq] at hx
                simp [← hx]
              · rintro ⟨h1, h2, h3⟩
                simp only [List.length_cons] at h2
                simp [← h2]
        · refine ⟨fun f hf => ?_, fun n => ?_, fun n => ?_⟩
          · simp [validateState, hh] at hf
          · simp only [validateState, hh]
            constructor
            · intro hx
              simp only [Except.error.injEq, IdfError.headerCount.injEq] at hx
              constructor
              · simp [← hx]
              · simp only [List.length_cons] at hx ⊢
                omega
            · rintro ⟨h1, h2⟩
              simp only [List.length_cons] at h1
              simp [← h1]
          · simp [validateState, hh]
      refine ⟨fun f hf => ⟨st, rfl, hmain.1 f (by rw [← hpt]; exact hf)⟩,
        fun n => ?_, fun n => ?_⟩
      · rw [hpt, hmain.2.1 n]
        constructor
        · intro hx
          exact ⟨st, rfl, hx⟩
        · rintro ⟨st', hst', hx⟩
          simp only [Except.ok.injEq] at hst'
          rw [hst']
          exact hx
      · rw [hpt, hmain.2.2 n]
        constructor
        · intro hx
          exact ⟨st, rfl, hx⟩
        · rintro ⟨st', hst', hx⟩
          simp only [Except.ok.injEq] at hst'
          rw [hst']
          exact hx

/-- C5 witness: a stream with no header at all fails with the header
cardinality error reporting zero, through the iff of the theorem. -/
theorem parse_cardinality_iff_witness :
    parseTokens ["junk"] = .error (.headerCount 0) := by
  refine ((parse_cardinality_iff ["junk"]).2.1 0).mpr ⟨initState, ?_, rfl, by decide⟩
  rfl

/-! ## Stepping lemmas for the scanning loop -/

lemma findEnd_at_marker (m : String) (l1 l2 : List String) (h : m ∉ l1) :
    findEnd m (l1 ++ m :: l2) = some l1.length := by
  induction l1 with
  | nil => simp [findEnd]
  | cons a l1 ih =>
      simp only [List.cons_append, findEnd, List.append_eq]
      rw [if_neg (fun hh => h (by simp [hh]))]
      rw [ih (fun hm => h (List.mem_cons_of_mem a hm))]
      simp [Option.map]

lemma drop_append_cons {α : Type} (l1 l2 : List α) (m : α) :
    (l1 ++ m :: l2).drop (l1.length + 1) = l2 := by
  rw [show l1 ++ m :: l2 = (l1 ++ [m]) ++ l2 by simp]
  rw [show l1.length + 1 = (l1 ++ [m]).length by simp]
  exact List.drop_left _ _

/-- Scanning a stream that starts with the nine tokens of a concrete
well-formed MM header consumes them, appending one header and setting the
unit factor to 1. -/
lemma scanGo_header_step (fuel : ℕ) (st : ParseState) (rest : List String) :
    ∃ hd, scanGo (fuel + 1) st (".HEADER" :: "IDF_FILE" :: "3.0" :: "Test" :: "2024-01-01" ::
        "1" :: "Board" :: "MM" :: ".END_HEADER" :: rest) =
      scanGo fuel { st with headers := st.headers ++ [hd], ucnv := 1 } rest :=
  ⟨_, rfl⟩

/-- Scanning a stream that starts with a board-outline section whose
handler succeeds continues after the end marker with the handler's
state. -/
lemma scanGo_board_step (fuel : ℕ) (st st' : ParseState) (sec rest : List String)
    (hnm : ".END_BOARD_OUTLINE" ∉ sec)
    (hh : handleBoardOutline ".BOARD_OUTLINE" st sec = .ok st') :
    scanGo (fuel + 1) st (".BOARD_OUTLINE" :: (sec ++ ".END_BOARD_OUTLINE" :: rest)) =
      scanGo fuel st' rest := by
  rw [show scanGo (fuel + 1) st (".BOARD_OUTLINE" :: (sec ++ ".END_BOARD_OUTLINE" :: rest)) =
      scanBody (scanGo fuel) st ".BOARD_OUTLINE" (sec ++ ".END_BOARD_OUTLINE" :: rest) from rfl]
  unfold scanBody
  rw [if_neg (by decide : ¬(".BOARD_OUTLINE" = ".HEADER"))]
  rw [if_pos (Or.inl rfl : ".BOARD_OUTLINE" = ".BOARD_OUTLINE" ∨
      ".BOARD_OUTLINE" = ".PANEL_OUTLINE")]
  unfold sectionStep
  rw [findEnd_at_marker _ _ _ hnm]
  dsimp only
  rw [List.take_left, drop_append_cons, hh]
  rfl

/-- A board-outline section whose loop points decode but produce no
geometry: the handler only advances the sequence counter and records no
outline. -/
lemma handleBoardOutline_degenerate (st : ParseState) (sec : List String)
    (lps : List LoopPoint) (seq' : ℕ)
    (hlp : parseLoopPoints st.seq (sec.drop 2) = .ok (lps, seq'))
    (hg : pointsToGeometry st.ucnv lps = []) :
    handleBoardOutline ".BOARD_OUTLINE" st sec = .ok { st with seq := seq' } := by
  unfold handleBoardOutline
  rw [hlp]
  simp only [bind, Except.bind]
  rw [hg]

/-- C10: a board-outline section whose body yields no geometry (here: its
loop points decode to a list whose reconstruction is empty, which covers a
body with no complete four-token vertex record as well as loops that
degenerate below three points without arcs) contributes nothing to the
board-outline count, so a file whose only board-outline section is such a
section fails the parse with the cardinality error reporting zero board
outlines rather than producing an empty outline. -/
theorem degenerate_board_outline_zero_count (sec : List String)
    (hnm : ".END_BOARD_OUTLINE" ∉ sec)
    (lps : List LoopPoint) (seq' : ℕ)
    (hlp : parseLoopPoints 0 (sec.drop 2) = .ok (lps, seq'))
    (hg : pointsToGeometry 1 lps = []) :
    parseTokens ([".HEADER", "IDF_FILE", "3.0", "Test", "2024-01-01", "1", "Board", "MM",
        ".END_HEADER", ".BOARD_OUTLINE"] ++ sec ++ [".END_BOARD_OUTLINE"]) =
      .error (.boardOutlineCount 0) := by
  have hlen : ([".HEADER", "IDF_FILE", "3.0", "Test", "2024-01-01", "1", "Board", "MM",
      ".END_HEADER", ".BOARD_OUTLINE"] ++ sec ++ [".END_BOARD_OUTLINE"]).length =
      (sec.length + 9) + 1 + 1 := by
    simp [List.length_append]
  obtain ⟨hd, hstep⟩ := scanGo_header_step ((sec.length + 9) + 1) initState
      (".BOARD_OUTLINE" :: (sec ++ [".END_BOARD_OUTLINE"]))
  have hstate : ({ initState with headers := initState.headers ++ [hd], ucnv := 1 } :
      ParseState).seq = 0 := rfl
  have hstate2 : ({ initState with headers := initState.headers ++ [hd], ucnv := 1 } :
      ParseState).ucnv = 1 := rfl
  have hhandler := handleBoardOutline_degenerate
      { initState with headers := initState.headers ++ [hd], ucnv := 1 } sec lps seq'
      (by rw [hstate]; exact hlp) (by rw [hstate2]; exact hg)
  have hbstep := scanGo_board_step (sec.length + 9)
      { initState with headers := initState.headers ++ [hd], ucnv := 1 }
      { ({ initState with headers := initState.headers ++ [hd], ucnv := 1 } :
          ParseState) with seq := seq' } sec [] hnm hhandler
  unfold parseTokens runScan
  rw [hlen]
  rw [show ([".HEADER", "IDF_FILE", "3.0", "Test", "2024-01-01", "1", "Board", "MM",
      ".END_HEADER", ".BOARD_OUTLINE"] ++ sec ++ [".END_BOARD_OUTLINE"]) =
      (".HEADER" :: "IDF_FILE" :: "3.0" :: "Test" :: "2024-01-01" :: "1" :: "Board" :: "MM" ::
        ".END_HEADER" :: (".BOARD_OUTLINE" :: (sec ++ [".END_BOARD_OUTLINE"]))) from by simp]
  rw [hstep]
  rw [show (sec ++ [".END_BOARD_OUTLINE"] : List String) =
      sec ++ ".END_BOARD_OUTLINE" :: [] from rfl] at hbstep ⊢
  rw [hbstep]
  rw [scanGo_nil]
  rfl

/-- C10 witness: a file whose board-outline section holds only three loop
tokens (no complete four-token vertex record) fails with the board-outline
cardinality error reporting zero. -/
theorem degenerate_board_outline_zero_count_witness :
    parseTokens ([".HEADER", "IDF_FILE", "3.0", "Test", "2024-01-01", "1", "Board", "MM",
        ".END_HEADER", ".BOARD_OUTLINE"] ++ ["OWNER", "1.6", "0", "0", "0"] ++
        [".END_BOARD_OUTLINE"]) = .error (.boardOutlineCount 0) :=
  degenerate_board_outline_zero_count ["OWNER", "1.6", "0", "0", "0"] (by decide) [] 0
    (by decide) rfl

/-! ## Arc reconstruction -/

lemma atan2_mem_Ioc (y x : ℝ) : -Real.pi < atan2 y x ∧ atan2 y x ≤ Real.pi :=
  ⟨Complex.neg_pi_lt_arg _, Complex.arg_le_pi _⟩

lemma degrees_atan2_mem (y x : ℝ) :
    -180 < degreesOf (atan2 y x) ∧ degreesOf (atan2 y x) ≤ 180 := by
  obtain ⟨h1, h2⟩ := atan2_mem_Ioc y x
  have hpi := Real.pi_pos
  unfold degreesOf
  constructor
  · rw [lt_div_iff₀ hpi]
    nlinarith
  · rw [div_le_iff₀ hpi]
    nlinarith

lemma normalize_start (sa : ℝ) (h1 : -180 < sa) (h2 : sa ≤ 180) :
    (0 ≤ (if sa < 0 then sa + 360 else if 360 < sa then sa - 360 else sa) ∧
     (if sa < 0 then sa + 360 else if 360 < sa then sa - 360 else sa) < 360) ∧
    ((if sa < 0 then sa + 360 else if 360 < sa then sa - 360 else sa) = sa ∨
     (if sa < 0 then sa + 360 else if 360 < sa then sa - 360 else sa) = sa + 360) := by
  by_cases hneg : sa < 0
  · rw [if_pos hneg]
    exact ⟨⟨by linarith, by linarith⟩, Or.inr rfl⟩
  · push_neg at hneg
    rw [if_neg (not_lt.mpr hneg), if_neg (by linarith : ¬(360 < sa))]
    exact ⟨⟨hneg, by linarith⟩, Or.inl rfl⟩

lemma radiansOf_half_ninety : radiansOf ((90 : ℚ) / 2) = Real.pi / 4 := by
  unfold radiansOf
  push_cast
  ring

lemma radiansOf_half_neg_ninety : radiansOf ((-90 : ℚ) / 2) = -(Real.pi / 4) := by
  unfold radiansOf
  push_cast
  ring

lemma sqrt_two_ge_one : (1 : ℝ) ≤ Real.sqrt 2 := by
  rw [show (1 : ℝ) = Real.sqrt 1 from Real.sqrt_one.symm]
  exact Real.sqrt_le_sqrt (by norm_num)

lemma sin45_not_small : ¬(|Real.sin (radiansOf ((90 : ℚ) / 2))| < 1e-10) := by
  rw [radiansOf_half_ninety, Real.sin_pi_div_four]
  rw [abs_of_nonneg (by positivity)]
  intro hcon
  nlinarith [sqrt_two_ge_one]

lemma sin_neg45_not_small : ¬(|Real.sin (radiansOf ((-90 : ℚ) / 2))| < 1e-10) := by
  rw [radiansOf_half_neg_ninety, Real.sin_neg, Real.sin_pi_div_four, abs_neg]
  rw [abs_of_nonneg (by positivity)]
  intro hcon
  nlinarith [sqrt_two_ge_one]

lemma sqrt_100_eq : Real.sqrt 100 = 10 := by
  rw [show (100 : ℝ) = 10 ^ 2 by norm_num]
  exact Real.sqrt_sq (by norm_num)

lemma sqrt200_over : Real.sqrt 200 / (2 * (Real.sqrt 2 / 2)) = 10 := by
  rw [show (2 : ℝ) * (Real.sqrt 2 / 2) = Real.sqrt 2 by ring]
  rw [show (200 : ℝ) = 2 * 100 by norm_num]
  rw [Real.sqrt_mul (by norm_num) 100, sqrt_100_eq]
  rw [mul_comm, mul_div_assoc, div_self (by positivity : Real.sqrt 2 ≠ 0)]
  norm_num

/-- C6: for every vertex with bulge angle not zero and not of absolute
value 360, nonzero chord and sin of the half sweep not below the 1e-10
threshold, the arc branch emits an arc with radius the absolute value of
the chord length over twice the sin of the half sweep, center at the
chord midpoint offset along the chord's perpendicular by
sqrt(max(0, r^2 - (d/2)^2)) with the direction flipped once when the
sweep's absolute value exceeds 180 and once more when the sweep is
negative, start angle equal to the angle of the vector from the center to
the previous point normalized into [0, 360), and signed sweep equal to
the bulge angle; on the chord (0,0)-(10,10) a 90 degree bulge gives sweep
exactly 90 (within the claimed 0.01) and radius exactly
sqrt(200)/(2 sin(45 degrees)) = 10 (within the claimed 0.1), and a -90
degree bulge gives sweep -90 with the same radius. -/
theorem arc_reconstruction_formulas :
    (∀ xp yp xn yn θ : ℚ,
      ((xp - xn) ^ 2 + (yp - yn) ^ 2 : ℚ) ≠ 0 →
      ¬(|Real.sin (radiansOf (θ / 2))| < 1e-10) →
      ∃ a : ArcShape, arcStep xp yp xn yn θ = some a ∧
        a.sweep = θ ∧
        a.radius = |Real.sqrt (((xp - xn) ^ 2 + (yp - yn) ^ 2 : ℚ) : ℝ) /
          (2 * Real.sin (radiansOf (θ / 2)))| ∧
        (0 ≤ a.startAngle ∧ a.startAngle < 360) ∧
        (a.startAngle = degreesOf (atan2 ((yp : ℝ) - a.cy) ((xp : ℝ) - a.cx)) ∨
         a.startAngle = degreesOf (atan2 ((yp : ℝ) - a.cy) ((xp : ℝ) - a.cx)) + 360) ∧
        (∃ d m s : ℝ,
          d = Real.sqrt (((xp - xn) ^ 2 + (yp - yn) ^ 2 : ℚ) : ℝ) ∧
          m = Real.sqrt (max 0 (a.radius ^ 2 - (d / 2) ^ 2)) ∧
          s = (if 180 < |θ| then (-1 : ℝ) else 1) * (if θ < 0 then (-1 : ℝ) else 1) ∧
          a.cx = (((xp + xn) / 2 : ℚ) : ℝ) - ((yn : ℝ) - (yp : ℝ)) / d * m * s ∧
          a.cy = (((yp + yn) / 2 : ℚ) : ℝ) + ((xn : ℝ) - (xp : ℝ)) / d * m * s)) ∧
    (∃ a : ArcShape, arcStep 0 0 10 10 90 = some a ∧
      a.sweep = 90 ∧ a.radius = 10 ∧
      |((a.sweep : ℚ) : ℝ) - 90| < 0.01 ∧
      |a.radius - Real.sqrt 200 / (2 * Real.sin (Real.pi / 4))| < 0.1) ∧
    (∃ a : ArcShape, arcStep 0 0 10 10 (-90) = some a ∧
      a.sweep = -90 ∧ a.radius = 10) := by
  have hgen : ∀ xp yp xn yn θ : ℚ,
      ((xp - xn) ^ 2 + (yp - yn) ^ 2 : ℚ) ≠ 0 →
      ¬(|Real.sin (radiansOf (θ / 2))| < 1e-10) →
      ∃ a : ArcShape, arcStep xp yp xn yn θ = some a ∧
        a.sweep = θ ∧
        a.radius = |Real.sqrt (((xp - xn) ^ 2 + (yp - yn) ^ 2 : ℚ) : ℝ) /
          (2 * Real.sin (radiansOf (θ / 2)))| ∧
        (0 ≤ a.startAngle ∧ a.startAngle < 360) ∧
        (a.startAngle = degreesOf (atan2 ((yp : ℝ) - a.cy) ((xp : ℝ) - a.cx)) ∨
         a.startAngle = degreesOf (atan2 ((yp : ℝ) - a.cy) ((xp : ℝ) - a.cx)) + 360) ∧
        (∃ d m s : ℝ,
          d = Real.sqrt (((xp - xn) ^ 2 + (yp - yn) ^ 2 : ℚ) : ℝ) ∧
          m = Real.sqrt (max 0 (a.radius ^ 2 - (d / 2) ^ 2)) ∧
          s = (if 180 < |θ| then (-1 : ℝ) else 1) * (if θ < 0 then (-1 : ℝ) else 1) ∧
          a.cx = (((xp + xn) / 2 : ℚ) : ℝ) - ((yn : ℝ) - (yp : ℝ)) / d * m * s ∧
          a.cy = (((yp + yn) / 2 : ℚ) : ℝ) + ((xn : ℝ) - (xp : ℝ)) / d * m * s) := by
    intro xp yp xn yn θ hd hs
    simp only [arcStep]
    rw [if_neg hd, if_neg hs]
    refine ⟨_, rfl, rfl, ?_, ?_, ?_, ?_⟩
    · dsimp only
      rw [div_div]
    · dsimp only
      exact (normalize_start _ (degrees_atan2_mem _ _).1 (degrees_atan2_mem _ _).2).1
    · dsimp only
      exact (normalize_start _ (degrees_atan2_mem _ _).1 (degrees_atan2_mem _ _).2).2
    · refine ⟨_, _, _, rfl, rfl, rfl, ?_, ?_⟩
      · dsimp only
        ring
      · dsimp only
        ring
  refine ⟨hgen, ?_, ?_⟩
  · obtain ⟨a, ha, hsw, hrad, -, -, -⟩ := hgen 0 0 10 10 90 (by norm_num) sin45_not_small
    have hc : ((((0 : ℚ) - 10) ^ 2 + ((0 : ℚ) - 10) ^ 2 : ℚ) : ℝ) = 200 := by
      push_cast
      norm_num
    rw [hc, radiansOf_half_ninety, Real.sin_pi_div_four, sqrt200_over] at hrad
    have hrad10 : a.radius = 10 := by rw [hrad]; norm_num
    refine ⟨a, ha, hsw, hrad10, ?_, ?_⟩
    · rw [hsw]
      push_cast
      norm_num
    · rw [hrad10, Real.sin_pi_div_four, sqrt200_over]
      norm_num
  · obtain ⟨a, ha, hsw, hrad, -, -, -⟩ := hgen 0 0 10 10 (-90) (by norm_num) sin_neg45_not_small
    have hc : ((((0 : ℚ) - 10) ^ 2 + ((0 : ℚ) - 10) ^ 2 : ℚ) : ℝ) = 200 := by
      push_cast
      norm_num
    rw [hc, radiansOf_half_neg_ninety, Real.sin_neg, Real.sin_pi_div_four] at hrad
    rw [show (2 : ℝ) * -(Real.sqrt 2 / 2) = -(2 * (Real.sqrt 2 / 2)) by ring] at hrad
    rw [div_neg, abs_neg, sqrt200_over] at hrad
    have hrad10 : a.radius = 10 := by rw [hrad]; norm_num
    exact ⟨a, ha, hsw, hrad10⟩


/-- C6 witness: the theorem applied on the chord (0,0)-(10,10) with a 90
degree bulge. -/
theorem arc_reconstruction_formulas_witness :
    ∃ a : ArcShape, arcStep 0 0 10 10 90 = some a ∧ a.sweep = 90 ∧
      (0 ≤ a.startAngle ∧ a.startAngle < 360) := by
  obtain ⟨a, ha, hsw, -, hb, -, -⟩ :=
    arc_reconstruction_formulas.1 0 0 10 10 90 (by norm_num) sin45_not_small
  exact ⟨a, ha, hsw, hb⟩

end IdfEmn
